/-
Verification of the table utilities in gnss_analysis/tables.py against its
natural-language specification.

The Python module is shallowly embedded below.  Conventions of the embedding:
  * pandas floating-point values are modelled as rationals;
  * a possibly-missing value (NaN / NaT) is an Option value, with none for
    missing; elementwise arithmetic propagates none exactly as pandas
    arithmetic propagates NaN;
  * timestamps are modelled as rational numbers of seconds since an epoch;
  * a pandas exception is modelled with Except;
  * warnings emitted by warnings.warn are collected in a returned list.
-/
import Mathlib

set_option maxHeartbeats 1000000

/-- A pandas Series of possibly missing rational values, positionally aligned
with the index of the table that owns it. -/
abbrev Series := List (Option ℚ)

/-- Conversion constant MSEC_TO_SEC = 1e-3 from the source. -/
def MSEC_TO_SEC : ℚ := 1 / 1000

/-- Result of pd.ols with a single regressor and an intercept: the slope is
model.beta.x and the intercept model.beta.intercept. -/
structure OLSModel where
  x : ℚ
  intercept : ℚ
deriving DecidableEq

/-- Closed form of an ordinary least squares fit of y on x with intercept,
over the list of sample points.  Rational division by zero yields zero, which
only happens for degenerate samples never reached by the claims. -/
def olsFit (pts : List (ℚ × ℚ)) : OLSModel :=
  let n : ℚ := pts.length
  let sx := (pts.map Prod.fst).sum
  let sy := (pts.map Prod.snd).sum
  let sxy := (pts.map (fun p => p.1 * p.2)).sum
  let sxx := (pts.map (fun p => p.1 * p.1)).sum
  let slope := (n * sxy - sx * sy) / (n * sxx - sx * sx)
  { x := slope, intercept := (sy - slope * sx) / n }

/-- Embedding of interpolate_gpst_model: pairs each row's GPS timestamp
offset (seconds from the row 0 timestamp) with the host offset converted to
seconds, drops pairs with a missing member as pd.ols does, and fits the line.
Returns none when the reference frame is empty or its first timestamp is
missing, where the Python raises while indexing row 0 or fitting. -/
def interpolate_gpst_model (index : List (Option ℚ)) (host_offset : Series) :
    Option OLSModel :=
  match index with
  | [] => none
  | t0? :: _ =>
    t0?.map (fun t0 =>
      olsFit ((index.zip host_offset).filterMap (fun p =>
        match p with
        | (some t, some h) => some (h * MSEC_TO_SEC, t - t0)
        | _ => none)))

/-- Embedding of apply_gps_time: evaluates the linear model at a host offset
already expressed in seconds and adds the resulting GPS offset (as a
Timedelta in seconds) to the initial date. -/
def apply_gps_time (host_offset : ℚ) (init_date : ℚ) (model : OLSModel) : ℚ :=
  init_date + (model.x * host_offset + model.intercept)

/-- Embedding of the lambda f built inside get_gps_time_col: converts a host
offset from milliseconds to seconds and applies apply_gps_time.  This is the
clock-model apply operation of the specification. -/
def gpst_apply_ms (model : OLSModel) (init_date : ℚ) (t1 : ℚ) : ℚ :=
  apply_gps_time (t1 * MSEC_TO_SEC) init_date model

/-- C3: the clock-model apply operation takes one local-clock offset in
milliseconds, converts it to seconds, and for every fitted model with slope s
and intercept b and every host offset h returns exactly
init_date + Timedelta(seconds = s * h_sec + b).  The embedding is a pure
function, so there are no side effects. -/
theorem apply_gps_time_linear_formula (model : OLSModel) (init_date h : ℚ) :
    gpst_apply_ms model init_date h =
      init_date + (model.x * (h / 1000) + model.intercept) := by
  unfold gpst_apply_ms apply_gps_time MSEC_TO_SEC
  ring

/-- A flat pandas table as it sits in the HDFStore: the stored object is
fields-by-time, so transposing it exposes the time labels as index and the
fields as columns.  index holds the (possibly missing) time labels of the
transposed table and fields the named columns of the transposed table. -/
structure DataFrame where
  index : List (Option ℚ)
  fields : List (String × Series)
deriving DecidableEq

/-- A 3-dimensional pandas Panel: satellite items, each carrying named fields
whose series are aligned with the shared time index. -/
structure PanelT where
  index : List (Option ℚ)
  items : List (String × List (String × Series))
deriving DecidableEq

/-- An object held by the HDFStore: a flat table, a panel, or something of
another type (for which the Python isinstance chain has no branch). -/
inductive StoreObj where
  | dataFrame (df : DataFrame)
  | panel (p : PanelT)
  | other
deriving DecidableEq

/-- The pandas HDFStore, keyed by table name. -/
abbrev Store := List (String × StoreObj)

/-- A pandas exception reaching the caller. -/
inductive PdError where
  | keyError (k : String)
  | attributeError (k : String)
  | indexError
deriving DecidableEq

/-- Assignment into an association list, as pandas column assignment and
store assignment behave: an existing key is overwritten in place, a new key
is appended at the end. -/
def assocSet {α : Type} : List (String × α) → String → α → List (String × α)
  | [], k, v => [(k, v)]
  | p :: ps, k, v => if p.1 == k then (k, v) :: ps else p :: assocSet ps k v

theorem lookup_assocSet_self {α : Type} (l : List (String × α)) (k : String) (v : α) :
    (assocSet l k v).lookup k = some v := by
  induction l with
  | nil => simp [assocSet, List.lookup]
  | cons p ps ih =>
    by_cases h : p.1 = k
    · simp [assocSet, h, List.lookup]
    · have hb : (p.1 == k) = false := by simp [h]
      have hb2 : (k == p.1) = false := by simp [Ne.symm h]
      simp [assocSet, hb, List.lookup, hb2, ih]

theorem lookup_assocSet_ne {α : Type} (l : List (String × α)) (k k2 : String) (v : α)
    (h : k2 ≠ k) : (assocSet l k v).lookup k2 = l.lookup k2 := by
  induction l with
  | nil =>
    have hb : (k2 == k) = false := by simp [h]
    simp [assocSet, List.lookup, hb]
  | cons p ps ih =>
    by_cases hk : p.1 = k
    · have hb : (p.1 == k) = true := by simp [hk]
      have hb2 : (k2 == k) = false := by simp [h]
      have hb3 : (k2 == p.1) = false := by simp [hk, h]
      simp [assocSet, hb, List.lookup, hb2, hb3]
    · have hb : (p.1 == k) = false := by simp [hk]
      by_cases he : k2 = p.1
      · simp [assocSet, hb, List.lookup, he]
      · have hb2 : (k2 == p.1) = false := by simp [he]
        simp [assocSet, hb, List.lookup, hb2, ih]

/-- Warning text emitted by get_gps_time_col and reindex_tables for a table
name that is not present in the store. -/
def warnMsg (tab : String) : String := tab ++ " not found in Pandas table"

/-- Flat-table branch of get_gps_time_col: reads the host_offset column of
the transposed table (an AttributeError if the field is absent), maps the
clock model over it elementwise, and assigns the result under the gpst_col
parameter. -/
def processDF (f : ℚ → ℚ) (gpst_col : String) (df : DataFrame) :
    Except PdError DataFrame :=
  match df.fields.lookup "host_offset" with
  | none => Except.error (PdError.attributeError "host_offset")
  | some hs =>
    Except.ok { df with fields := assocSet df.fields gpst_col (hs.map (Option.map f)) }

/-- Per-item loop of the panel branch of get_gps_time_col: for every
satellite item, the host_offset series is taken (a KeyError if the field is
absent), the defined entries are mapped through the clock model (dropna
followed by apply followed by realignment on the panel time index is exactly
an elementwise Option.map), and the result is attached under the literal
field name approx_gps_time. -/
def panelItemsBackfill (f : ℚ → ℚ) :
    List (String × List (String × Series)) →
    Except PdError (List (String × List (String × Series)))
  | [] => Except.ok []
  | it :: rest =>
    match (it.2).lookup "host_offset" with
    | none => Except.error (PdError.keyError "host_offset")
    | some hs =>
      match panelItemsBackfill f rest with
      | Except.error e => Except.error e
      | Except.ok rest2 =>
        Except.ok ((it.1, assocSet it.2 "approx_gps_time" (hs.map (Option.map f))) :: rest2)

/-- Panel branch of get_gps_time_col. -/
def processPanel (f : ℚ → ℚ) (p : PanelT) : Except PdError PanelT :=
  match panelItemsBackfill f p.items with
  | Except.error e => Except.error e
  | Except.ok its => Except.ok { p with items := its }

/-- Body of the per-table loop of get_gps_time_col.  A missing table is
warned about and skipped; a flat table and a panel are backfilled; a table of
any other type falls through the isinstance chain and nothing happens. -/
def backfillStep (f : ℚ → ℚ) (gpst_col : String) (acc : Store × List String)
    (tab : String) : Except PdError (Store × List String) :=
  match (acc.1).lookup tab with
  | none => Except.ok (acc.1, acc.2 ++ [warnMsg tab])
  | some (StoreObj.dataFrame df) =>
    (processDF f gpst_col df).map
      (fun df2 => (assocSet acc.1 tab (StoreObj.dataFrame df2), acc.2))
  | some (StoreObj.panel p) =>
    (processPanel f p).map
      (fun p2 => (assocSet acc.1 tab (StoreObj.panel p2), acc.2))
  | some StoreObj.other => Except.ok acc

/-- Embedding of get_gps_time_col: fits the clock model from the rover_spp
table, then runs the per-table loop over the requested table names,
returning the updated store and the emitted warnings. -/
def get_gps_time_col (store : Store) (tabs : List String) (gpst_col : String) :
    Except PdError (Store × List String) :=
  match store.lookup "rover_spp" with
  | some (StoreObj.dataFrame rover) =>
    match rover.fields.lookup "host_offset" with
    | none => Except.error (PdError.attributeError "host_offset")
    | some hs =>
      match rover.index with
      | some t0 :: _ =>
        match interpolate_gpst_model rover.index hs with
        | some model =>
          tabs.foldlM (backfillStep (gpst_apply_ms model t0) gpst_col) (store, [])
        | none => Except.error PdError.indexError
      | _ => Except.error PdError.indexError
  | _ => Except.error (PdError.attributeError "rover_spp")

/-- Embedding of DataFrame.T.set_index(col).T as used by reindex_tables: the
named column becomes the new index (a KeyError if it is absent) and is
removed from the columns. -/
def set_index (df : DataFrame) (col : String) : Except PdError DataFrame :=
  match df.fields.lookup col with
  | none => Except.error (PdError.keyError col)
  | some vals =>
    Except.ok { index := vals, fields := df.fields.filter (fun p => p.1 != col) }

/-- Body of the per-table loop of reindex_tables.  On the panel branch the
source executes the statement assert NotImplementedError, which asserts the
exception class itself; the class object is truthy, so the assertion always
passes and the table is silently left unchanged. -/
def reindexStep (gpst_col : String) (acc : Store × List String) (tab : String) :
    Except PdError (Store × List String) :=
  match (acc.1).lookup tab with
  | none => Except.ok (acc.1, acc.2 ++ [warnMsg tab])
  | some (StoreObj.dataFrame df) =>
    (set_index df gpst_col).map
      (fun df2 => (assocSet acc.1 tab (StoreObj.dataFrame df2), acc.2))
  | some (StoreObj.panel _) => Except.ok acc
  | some StoreObj.other => Except.ok acc

/-- Embedding of reindex_tables. -/
def reindex_tables (store : Store) (tabs : List String) (gpst_col : String) :
    Except PdError (Store × List String) :=
  tabs.foldlM (reindexStep gpst_col) (store, [])

/-- A concrete panel-shaped table used to exercise the panel branches. -/
def panel0 : PanelT :=
  { index := [some 0], items := [("G1", [("host_offset", [some 5])])] }

/-- A store holding one panel-shaped table under the name obs. -/
def store0 : Store := [("obs", StoreObj.panel panel0)]

/-- C1: re-indexing a store whose requested table is panel-shaped completes
without any exception and leaves the store unchanged, because the statement
assert NotImplementedError asserts the truthy exception class instead of
raising it.  This contradicts the specified behavior of failing with
NotImplementedError. -/
theorem reindex_panel_silent_noop :
    reindex_tables store0 ["obs"] "approx_gps_time" = Except.ok (store0, []) := rfl

/-- C2 (amended): the per-table loop body of the time backfill never raises
for a table name missing from the store (it appends a warning and leaves the
store unchanged), and for a present table that is neither a flat table nor a
panel it silently does nothing: no UnsupportedTableTypeError or any other
exception is raised and the table is left untouched. -/
theorem backfill_missing_warns_other_skipped (f : ℚ → ℚ) (gpst_col : String)
    (st : Store) (ws : List String) (tab : String) :
    ((st.lookup tab = none) →
      backfillStep f gpst_col (st, ws) tab = Except.ok (st, ws ++ [warnMsg tab])) ∧
    ((st.lookup tab = some StoreObj.other) →
      backfillStep f gpst_col (st, ws) tab = Except.ok (st, ws)) := by
  constructor <;> intro h <;> simp [backfillStep, h]

/-- A store holding only an object of unsupported type. -/
def storeOther : Store := [("bad", StoreObj.other)]

theorem backfill_missing_warns_other_skipped_witness :
    backfillStep (fun x => x) "approx_gps_time" (storeOther, []) "bad" =
      Except.ok (storeOther, []) ∧
    backfillStep (fun x => x) "approx_gps_time" (storeOther, []) "zzz" =
      Except.ok (storeOther, [warnMsg "zzz"]) :=
  ⟨(backfill_missing_warns_other_skipped (fun x => x) "approx_gps_time"
      storeOther [] "bad").2 rfl,
   (backfill_missing_warns_other_skipped (fun x => x) "approx_gps_time"
      storeOther [] "zzz").1 rfl⟩

/-- A reference table fitting the clock model with slope one and intercept
zero. -/
def rover0 : DataFrame :=
  { index := [some 0, some 1], fields := [("host_offset", [some 0, some 1000])] }

/-- A store holding the reference table and one table of unsupported type. -/
def store1 : Store :=
  [("rover_spp", StoreObj.dataFrame rover0), ("bad", StoreObj.other)]

/-- C2 counterexample: running the time backfill on a store whose requested
table is present but neither a flat table nor a panel raises nothing at all,
contradicting the claim that it fails with UnsupportedTableTypeError; the
batch completes and the store is returned unchanged. -/
theorem backfill_other_table_no_error_cex :
    get_gps_time_col store1 ["bad"] "approx_gps_time" = Except.ok (store1, []) := rfl

/-- Every item of a successful panel backfill arises from an item of the
input panel by attaching the mapped host offsets under the literal field
name approx_gps_time. -/
theorem panelItemsBackfill_mem (f : ℚ → ℚ) :
    ∀ (l l2 : List (String × List (String × Series))),
      panelItemsBackfill f l = Except.ok l2 →
      ∀ it2 ∈ l2, ∃ it1 ∈ l, ∃ hs, (it1.2).lookup "host_offset" = some hs ∧
        it2 = (it1.1, assocSet it1.2 "approx_gps_time" (hs.map (Option.map f))) := by
  intro l
  induction l with
  | nil =>
    intro l2 h it2 hit2
    simp [panelItemsBackfill] at h
    subst h
    simp at hit2
  | cons it rest ih =>
    intro l2 h it2 hit2
    unfold panelItemsBackfill at h
    cases hlk : (it.2).lookup "host_offset" with
    | none => rw [hlk] at h; exact absurd h (by simp)
    | some hs =>
      rw [hlk] at h
      cases hrec : panelItemsBackfill f rest with
      | error e => rw [hrec] at h; exact absurd h (by simp)
      | ok rest2 =>
        rw [hrec] at h
        have h2 : (it.1, assocSet it.2 "approx_gps_time" (hs.map (Option.map f))) :: rest2 = l2 := by
          exact Except.ok.inj h
        subst h2
        rcases List.mem_cons.mp hit2 with hhead | htail
        · exact hhead ▸ ⟨it, by simp, hs, hlk, rfl⟩
        · obtain ⟨it1, hmem, hs1, hlk1, heq⟩ := ih rest2 hrec it2 htail
          exact ⟨it1, by simp [hmem], hs1, hlk1, heq⟩

/-- C9: when the time backfill processes a flat table the new field is
written under the value of the gpst_col parameter, whereas for a
panel-shaped table the new field is written under the literal name
approx_gps_time (the panel branch never consults the parameter) and every
other field name of an item keeps its previous binding. -/
theorem backfill_colname_panel_literal (f : ℚ → ℚ) (gpst_col : String)
    (df df2 : DataFrame) (p p2 : PanelT) :
    (processDF f gpst_col df = Except.ok df2 →
      ((df2.fields).lookup gpst_col).isSome = true) ∧
    (processPanel f p = Except.ok p2 →
      ∀ it2 ∈ p2.items,
        (((it2.2).lookup "approx_gps_time").isSome = true) ∧
        (∀ k, k ≠ "approx_gps_time" →
          ∃ it1, it1 ∈ p.items ∧ it1.1 = it2.1 ∧
            (it2.2).lookup k = (it1.2).lookup k)) := by
  constructor
  · intro h
    unfold processDF at h
    cases hlk : df.fields.lookup "host_offset" with
    | none => rw [hlk] at h; exact absurd h (by simp)
    | some hs =>
      rw [hlk] at h
      have h2 := Except.ok.inj h
      rw [← h2]
      simp [lookup_assocSet_self]
  · intro h it2 hit2
    unfold processPanel at h
    cases hrec : panelItemsBackfill f p.items with
    | error e => rw [hrec] at h; exact absurd h (by simp)
    | ok its =>
      rw [hrec] at h
      have h2 := Except.ok.inj h
      rw [← h2] at hit2
      obtain ⟨it1, hmem, hs, hlk, heq⟩ := panelItemsBackfill_mem f p.items its hrec it2 hit2
      constructor
      · rw [heq]
        simp [lookup_assocSet_self]
      · intro k hk
        refine ⟨it1, hmem, ?_, ?_⟩
        · rw [heq]
        · rw [heq]
          exact lookup_assocSet_ne it1.2 "approx_gps_time" k _ hk

/-- Concrete clock map used by the backfill witnesses. -/
def fW : ℚ → ℚ := fun x => x

/-- A concrete flat table with one host offset sample. -/
def df0 : DataFrame := { index := [some 0], fields := [("host_offset", [some 7])] }

/-- The flat table df0 after backfilling under the column name mycol. -/
def dfW : DataFrame :=
  { index := [some 0], fields := [("host_offset", [some 7]), ("mycol", [some 7])] }

/-- The panel panel0 with host offset seven after backfilling. -/
def p9 : PanelT := { index := [some 0], items := [("G1", [("host_offset", [some 7])])] }

/-- The panel p9 after backfilling: the new field name is the literal
approx_gps_time. -/
def pW : PanelT :=
  { index := [some 0],
    items := [("G1", [("host_offset", [some 7]), ("approx_gps_time", [some 7])])] }

theorem backfill_colname_panel_literal_witness :
    ((dfW.fields).lookup "mycol").isSome = true ∧
    ((("G1", [("host_offset", [some (7:ℚ)]), ("approx_gps_time", [some (7:ℚ)])]) :
        String × List (String × Series)).2.lookup "approx_gps_time").isSome = true :=
  have h := backfill_colname_panel_literal fW "mycol" df0 dfW p9 pW
  ⟨h.1 (by rfl),
   (h.2 (by rfl) ("G1", [("host_offset", [some 7]), ("approx_gps_time", [some 7])])
      (by decide)).1⟩

/-- A panel of observations held by the differencer: satellite items, field
major axis, time minor axis.  The value function is only meaningful on the
three axes; outside its own axes a panel contributes missing values, which is
how pandas alignment fills labels present on one side only. -/
structure ObsPanel where
  sats : List String
  fields : List String
  times : List ℚ
  val : String → String → ℚ → Option ℚ

/-- Value of the slice panel[:, fld, :] at a satellite row and time column,
none outside the panel axes. -/
def panelAt (p : ObsPanel) (fld : String) (s : String) (t : ℚ) : Option ℚ :=
  if s ∈ p.sats ∧ t ∈ p.times then p.val s fld t else none

/-- Elementwise value of the frame subtraction
rover[:, obs_type, :] - base[:, obs_type, :]: defined exactly where both
sides are defined, as pandas NaN propagation behaves. -/
def sdiffRaw (obs_type : String) (rover base : ObsPanel) (s : String) (t : ℚ) :
    Option ℚ :=
  match panelAt rover obs_type s t, panelAt base obs_type s t with
  | some a, some b => some (a - b)
  | _, _ => none

/-- Union of label lists as pandas index alignment produces it; the claims
are insensitive to the order of the union. -/
def unionList {α : Type} [DecidableEq α] (l1 l2 : List α) : List α :=
  l1 ++ l2.filter (fun x => decide (x ∉ l1))

/-- A single- or double-difference frame after the final transposition: rows
are epochs, columns are satellites, and the entry function is none outside
the axes. -/
structure SDF where
  times : List ℚ
  sats : List String
  entry : ℚ → String → Option ℚ

/-- Satellite rows surviving dropna(how=all): those with at least one
defined single difference. -/
def sdiffKeptSats (obs_type : String) (A B : ObsPanel) : List String :=
  (unionList A.sats B.sats).filter
    (fun s => (unionList A.times B.times).any
      (fun t => (sdiffRaw obs_type A B s t).isSome))

/-- Time columns surviving dropna(how=all): those with at least one defined
single difference. -/
def sdiffKeptTimes (obs_type : String) (A B : ObsPanel) : List ℚ :=
  (unionList A.times B.times).filter
    (fun t => (unionList A.sats B.sats).any
      (fun s => (sdiffRaw obs_type A B s t).isSome))

/-- Embedding of get_sdiff: asserts the observation type is P or L (an
AssertionError carrying the message built from the source format string
otherwise), slices both panels at the observation type (a KeyError if a
panel lacks that field on its major axis), subtracts with alignment, drops
rows and columns that are entirely missing, and transposes to a
times-by-satellites frame. -/
def get_sdiff (obs_type : String) (rover_obs base_obs : ObsPanel) :
    Except String SDF :=
  if obs_type = "P" ∨ obs_type = "L" then
    if obs_type ∈ rover_obs.fields ∧ obs_type ∈ base_obs.fields then
      Except.ok
        { times := sdiffKeptTimes obs_type rover_obs base_obs,
          sats := sdiffKeptSats obs_type rover_obs base_obs,
          entry := fun t s =>
            if t ∈ sdiffKeptTimes obs_type rover_obs base_obs ∧
               s ∈ sdiffKeptSats obs_type rover_obs base_obs then
              sdiffRaw obs_type rover_obs base_obs s t
            else none }
    else Except.error "KeyError"
  else Except.error ("Invalid obs_type: " ++ obs_type)

/-- Observation of an entry of a differencing result at given time and
satellite labels; an errored computation has no entries. -/
def exEntry (r : Except String SDF) (t : ℚ) (s : String) : Option ℚ :=
  match r with
  | Except.ok d => d.entry t s
  | Except.error _ => none

/-- Whether a differencing computation completed without an exception. -/
def isOkE (r : Except String SDF) : Bool :=
  match r with
  | Except.ok _ => true
  | Except.error _ => false

/-- Embedding of get_ddiff, sdiff - sdiff[ref_sat].  A KeyError when the
reference satellite is not a column.  The subtraction aligns the series on
the row index of the frame, the behavior of frame minus series when both
carry datetime labels in the pandas generation this source targets, so every
column has the reference column subtracted from it rowwise. -/
def get_ddiff (ref_sat : String) (sdiff : SDF) : Except String SDF :=
  if ref_sat ∈ sdiff.sats then
    Except.ok
      { times := sdiff.times, sats := sdiff.sats,
        entry := fun t s =>
          match sdiff.entry t s, sdiff.entry t ref_sat with
          | some a, some b => some (a - b)
          | _, _ => none }
  else Except.error "KeyError"

/-- Count of non-missing entries of one column of an sdiff frame, one value
of the Series sdiff.count() of the source. -/
def countObs (sdiff : SDF) (s : String) : Nat :=
  (sdiff.times.filter (fun t => (sdiff.entry t s).isSome)).length

/-- First-occurrence argmax fold: the running best is replaced only by a
strictly greater key, so the earliest maximal element wins, the semantics of
Series.argmax (idxmax) used by the source. -/
def argmaxAux {α : Type} (key : α → Nat) (best : α) : List α → α
  | [] => best
  | c :: cs => argmaxAux key (if key c > key best then c else best) cs

/-- Embedding of get_ref_sat, sdiff.count().argmax(): the first column label
whose count of non-missing observations is maximal, none for a frame with no
columns, where the Python raises. -/
def get_ref_sat (sdiff : SDF) : Option String :=
  match sdiff.sats with
  | [] => none
  | c :: cs => some (argmaxAux (countObs sdiff) c cs)

theorem argmaxAux_mem {α : Type} (key : α → Nat) :
    ∀ (l : List α) (b : α), argmaxAux key b l ∈ b :: l := by
  intro l
  induction l with
  | nil => intro b; simp [argmaxAux]
  | cons c cs ih =>
    intro b
    unfold argmaxAux
    by_cases h : key c > key b
    · rw [if_pos h]
      exact List.mem_cons_of_mem b (ih c)
    · rw [if_neg h]
      rcases List.mem_cons.mp (ih b) with h1 | h2
      · rw [h1]; exact List.mem_cons_self b (c :: cs)
      · exact List.mem_cons_of_mem b (List.mem_cons_of_mem c h2)

theorem argmaxAux_ge {α : Type} (key : α → Nat) :
    ∀ (l : List α) (b : α), key b ≤ key (argmaxAux key b l) ∧
      ∀ c ∈ l, key c ≤ key (argmaxAux key b l) := by
  intro l
  induction l with
  | nil => intro b; exact ⟨le_refl _, by simp⟩
  | cons c cs ih =>
    intro b
    unfold argmaxAux
    by_cases h : key c > key b
    · rw [if_pos h]
      obtain ⟨h1, h2⟩ := ih c
      refine ⟨le_trans (le_of_lt h) h1, ?_⟩
      intro d hd
      rcases List.mem_cons.mp hd with rfl | hdcs
      · exact h1
      · exact h2 d hdcs
    · rw [if_neg h]
      obtain ⟨h1, h2⟩ := ih b
      refine ⟨h1, ?_⟩
      intro d hd
      rcases List.mem_cons.mp hd with rfl | hdcs
      · exact le_trans (Nat.le_of_not_lt h) h1
      · exact h2 d hdcs

theorem argmaxAux_first {α : Type} (key : α → Nat) :
    ∀ (l : List α) (b : α),
      (b :: l).find? (fun c => key c == key (argmaxAux key b l)) =
        some (argmaxAux key b l) := by
  intro l
  induction l with
  | nil => intro b; simp [argmaxAux]
  | cons c cs ih =>
    intro b
    unfold argmaxAux
    by_cases h : key c > key b
    · rw [if_pos h]
      have hK : key b < key (argmaxAux key c cs) :=
        lt_of_lt_of_le h (argmaxAux_ge key cs c).1
      have hbne : (key b == key (argmaxAux key c cs)) = false := by
        simp [Nat.ne_of_lt hK]
      rw [List.find?_cons_of_neg _ (by simp [hbne])]
      exact ih c
    · rw [if_neg h]
      by_cases hbeq : key b = key (argmaxAux key b cs)
      · have hb : (key b == key (argmaxAux key b cs)) = true := by simp [hbeq]
        have hfind := ih b
        rw [List.find?_cons_of_pos _ (by simp [hb])] at hfind
        have hb2 : argmaxAux key b cs = b := (Option.some.inj hfind).symm
        rw [List.find?_cons_of_pos _ (by simp [hb]), hb2]
      · have hlt : key b < key (argmaxAux key b cs) :=
          lt_of_le_of_ne (argmaxAux_ge key cs b).1 hbeq
        have hbne : (key b == key (argmaxAux key b cs)) = false := by
          simp [hbeq]
        have hcne : (key c == key (argmaxAux key b cs)) = false := by
          have : key c < key (argmaxAux key b cs) :=
            lt_of_le_of_lt (Nat.le_of_not_lt h) hlt
          simp [Nat.ne_of_lt this]
        have hfind := ih b
        rw [List.find?_cons_of_neg _ (by simp [hbne])] at hfind
        rw [List.find?_cons_of_neg _ (by simp [hbne]),
            List.find?_cons_of_neg _ (by simp [hcne])]
        exact hfind

/-- C5: for every single-difference frame with at least one column, the
reference-satellite selection returns a column whose count of non-missing
values is at least that of every other column, and it is the first column in
column order among those achieving the maximal count. -/
theorem ref_sat_max_count_first (sdiff : SDF) (hne : sdiff.sats ≠ []) :
    ∃ r, get_ref_sat sdiff = some r ∧ r ∈ sdiff.sats ∧
      (∀ s ∈ sdiff.sats, countObs sdiff s ≤ countObs sdiff r) ∧
      sdiff.sats.find? (fun c => countObs sdiff c == countObs sdiff r) = some r := by
  cases hsats : sdiff.sats with
  | nil => exact absurd hsats hne
  | cons c cs =>
    refine ⟨argmaxAux (countObs sdiff) c cs, ?_, ?_, ?_, ?_⟩
    · unfold get_ref_sat
      rw [hsats]
    · exact argmaxAux_mem _ cs c
    · intro s hs
      rcases List.mem_cons.mp hs with rfl | hcs
      · exact (argmaxAux_ge (countObs sdiff) cs _).1
      · exact (argmaxAux_ge (countObs sdiff) cs c).2 s hcs
    · exact argmaxAux_first _ cs c

/-- A concrete single-difference frame whose two columns tie on the count of
non-missing values. -/
def sdT : SDF := { times := [0, 1], sats := ["A", "B"], entry := fun _ _ => some 1 }

theorem ref_sat_max_count_first_witness :
    get_ref_sat sdT = some "A" ∧
    (∃ r, get_ref_sat sdT = some r ∧ r ∈ sdT.sats ∧
      (∀ s ∈ sdT.sats, countObs sdT s ≤ countObs sdT r) ∧
      sdT.sats.find? (fun c => countObs sdT c == countObs sdT r) = some r) :=
  ⟨rfl, ref_sat_max_count_first sdT (by decide)⟩

/-- A concrete single-difference frame whose reference column G1 has one
defined and one missing entry. -/
def sdiff0 : SDF :=
  { times := [0, 1], sats := ["G1", "G2"],
    entry := fun t s =>
      if s = "G1" then (if t = 0 then some 5 else none) else some 1 }

/-- C4 counterexample: double differencing sdiff0 against its own column G1
succeeds, yet the entry of the G1 column at the row whose single difference
is missing is missing rather than zero, so the reference column is not
identically zero. -/
theorem ddiff_ref_column_not_all_zero_cex :
    isOkE (get_ddiff "G1" sdiff0) = true ∧ (1 : ℚ) ∈ sdiff0.times ∧
      "G1" ∈ sdiff0.sats ∧ exEntry (get_ddiff "G1" sdiff0) 1 "G1" ≠ some 0 := by
  refine ⟨by decide, by decide, by decide, by decide⟩

/-- C4 (amended): for every single-difference frame and reference satellite
for which the double difference succeeds, the reference column of the double
difference is zero at exactly the rows where the single difference is
defined, and missing at the rows where it is missing. -/
theorem ddiff_ref_column_zero_where_defined (sdiff : SDF) (ref : String) (t : ℚ)
    (h : isOkE (get_ddiff ref sdiff) = true) :
    exEntry (get_ddiff ref sdiff) t ref =
      Option.map (fun _ => (0 : ℚ)) (sdiff.entry t ref) := by
  unfold get_ddiff at *
  by_cases hm : ref ∈ sdiff.sats
  · rw [if_pos hm]
    unfold exEntry
    cases he : sdiff.entry t ref with
    | none => simp [he]
    | some a => simp [he]
  · rw [if_neg hm] at h
    exact absurd h (by simp [isOkE])

theorem ddiff_ref_column_zero_where_defined_witness :
    isOkE (get_ddiff "G1" sdiff0) = true ∧
    exEntry (get_ddiff "G1" sdiff0) 0 "G1" =
      Option.map (fun _ => (0 : ℚ)) (sdiff0.entry 0 "G1") :=
  ⟨by decide, ddiff_ref_column_zero_where_defined sdiff0 "G1" 0 (by decide)⟩

theorem sdiffRaw_antisym (obs_type : String) (A B : ObsPanel) (s : String) (t : ℚ)
    (v w : ℚ) (hv : sdiffRaw obs_type A B s t = some v)
    (hw : sdiffRaw obs_type B A s t = some w) : w = -v := by
  unfold sdiffRaw at hv hw
  cases ha : panelAt A obs_type s t with
  | none =>
    rw [ha] at hv
    cases hb : panelAt B obs_type s t <;> rw [hb] at hv <;> simp at hv
  | some a =>
    cases hb : panelAt B obs_type s t with
    | none => rw [ha, hb] at hv; simp at hv
    | some b =>
      rw [ha, hb] at hv hw
      have h1 : v = a - b := (Option.some.inj hv).symm
      have h2 : w = b - a := (Option.some.inj hw).symm
      rw [h1, h2]; ring

theorem exEntry_get_sdiff_some (obs_type : String) (A B : ObsPanel) (t : ℚ)
    (s : String) (v : ℚ) (h : exEntry (get_sdiff obs_type A B) t s = some v) :
    sdiffRaw obs_type A B s t = some v := by
  unfold get_sdiff at h
  by_cases h1 : obs_type = "P" ∨ obs_type = "L"
  · rw [if_pos h1] at h
    by_cases h2 : obs_type ∈ A.fields ∧ obs_type ∈ B.fields
    · rw [if_pos h2] at h
      simp only [exEntry] at h
      by_cases h3 : t ∈ sdiffKeptTimes obs_type A B ∧ s ∈ sdiffKeptSats obs_type A B
      · rw [if_pos h3] at h
        exact h
      · rw [if_neg h3] at h
        exact absurd h (by simp)
    · rw [if_neg h2] at h
      exact absurd h (by simp [exEntry])
  · rw [if_neg h1] at h
    exact absurd h (by simp [exEntry])

/-- C6: single differencing is antisymmetric.  Whenever the same time and
satellite carry a defined entry in both single-difference frames computed in
the two orders, the two entries are negatives of each other. -/
theorem sdiff_antisymmetric (obs_type : String) (A B : ObsPanel) (t : ℚ)
    (s : String) (v w : ℚ)
    (hAB : exEntry (get_sdiff obs_type A B) t s = some v)
    (hBA : exEntry (get_sdiff obs_type B A) t s = some w) : w = -v :=
  sdiffRaw_antisym obs_type A B s t v w
    (exEntry_get_sdiff_some obs_type A B t s v hAB)
    (exEntry_get_sdiff_some obs_type B A t s w hBA)

/-- A concrete rover observation panel. -/
def pA : ObsPanel :=
  { sats := ["G1"], fields := ["P"], times := [0], val := fun _ _ _ => some 5 }

/-- A concrete base observation panel. -/
def pB : ObsPanel :=
  { sats := ["G1"], fields := ["P"], times := [0], val := fun _ _ _ => some 2 }

theorem sdiff_antisymmetric_witness :
    exEntry (get_sdiff "P" pA pB) 0 "G1" = some 3 ∧
    exEntry (get_sdiff "P" pB pA) 0 "G1" = some (-3) ∧ ((-3 : ℚ) = -(3 : ℚ)) := by
  have hab : exEntry (get_sdiff "P" pA pB) 0 "G1" = some 3 := by
    norm_num [exEntry, get_sdiff, sdiffKeptTimes, sdiffKeptSats, sdiffRaw,
      panelAt, unionList, pA, pB]
  have hba : exEntry (get_sdiff "P" pB pA) 0 "G1" = some (-3) := by
    norm_num [exEntry, get_sdiff, sdiffKeptTimes, sdiffKeptSats, sdiffRaw,
      panelAt, unionList, pA, pB]
  exact ⟨hab, hba, sdiff_antisymmetric "P" pA pB 0 "G1" 3 (-3) hab hba⟩

/-- C7: for every observation-type value other than P or L and all panels,
single differencing fails with the invalid-observation-type assertion
error. -/
theorem sdiff_invalid_obs_type_error (obs_type : String) (A B : ObsPanel)
    (h1 : obs_type ≠ "P") (h2 : obs_type ≠ "L") :
    get_sdiff obs_type A B = Except.error ("Invalid obs_type: " ++ obs_type) := by
  unfold get_sdiff
  rw [if_neg]
  rintro (h | h)
  · exact h1 h
  · exact h2 h

theorem sdiff_invalid_obs_type_error_witness :
    get_sdiff "X" pA pB = Except.error ("Invalid obs_type: " ++ "X") :=
  sdiff_invalid_obs_type_error "X" pA pB (by decide) (by decide)

/-- Tail of Series.diff: each value minus the previous one, paired with its
own index label. -/
def diffAux (prev : ℚ) : List (ℚ × ℚ) → List (ℚ × Option ℚ)
  | [] => []
  | (t, v) :: rest => (t, some (v - prev)) :: diffAux v rest

/-- Series.diff on an index-value series: the first element has no
predecessor and gets a missing difference. -/
def seriesDiff : List (ℚ × ℚ) → List (ℚ × Option ℚ)
  | [] => []
  | (t, v) :: rest => (t, none) :: diffAux v rest

/-- Stable descending insertion by gap value: an element passes over the
strictly greater ones and lands before the first element not exceeding it,
so among equal values an earlier element stays first. -/
def insertDescBy (x : ℚ × ℚ) : List (ℚ × ℚ) → List (ℚ × ℚ)
  | [] => [x]
  | y :: ys => if y.2 ≤ x.2 then x :: y :: ys else y :: insertDescBy x ys

/-- Stable descending insertion sort by gap value, the output order of
Series.nlargest with its default first-occurrence tie keeping. -/
def sortGapsDesc : List (ℚ × ℚ) → List (ℚ × ℚ)
  | [] => []
  | x :: xs => insertDescBy x (sortGapsDesc xs)

/-- Series.nlargest on a series of possibly missing values: missing entries
never participate, the rest are ordered descending with ties in original
order, and the first n are taken. -/
def nlargest (n : Nat) (s : List (ℚ × Option ℚ)) : List (ℚ × ℚ) :=
  (sortGapsDesc (s.filterMap (fun p => (p.2).map (fun v => (p.1, v))))).take n

/-- Embedding of find_largest_gaps: elapsed seconds from the first
timestamp, positional Series over the original timestamps, successive
differences, n largest.  none on an empty index, where the Python raises
while reading the first element. -/
def find_largest_gaps (idx : List ℚ) (n : Nat) : Option (List (ℚ × ℚ)) :=
  match idx with
  | [] => none
  | t0 :: _ =>
    some (nlargest n (seriesDiff (idx.zip (idx.map (fun t => t - t0)))))

/-- Specification formula for the successive gaps of a timestamp sequence
continuing a previous timestamp: each gap is paired with the timestamp at
which it ends. -/
def specGapsAux (prev : ℚ) : List ℚ → List (ℚ × ℚ)
  | [] => []
  | b :: rest => (b, b - prev) :: specGapsAux b rest

/-- Specification formula for the successive gaps of a timestamp sequence:
the differences ending at the second and later timestamps, each paired with
the ending timestamp. -/
def specGaps : List ℚ → List (ℚ × ℚ)
  | [] => []
  | a :: rest => specGapsAux a rest

theorem diffAux_zip (t0 : ℚ) :
    ∀ (ts : List ℚ) (prev : ℚ),
      diffAux (prev - t0) (ts.zip (ts.map (fun t => t - t0))) =
        (specGapsAux prev ts).map (fun p => (p.1, some p.2)) := by
  intro ts
  induction ts with
  | nil => intro prev; simp [diffAux, specGapsAux]
  | cons b rest ih =>
    intro prev
    have harith : b - t0 - (prev - t0) = b - prev := by ring
    simp only [List.map_cons, List.zip_cons_cons, diffAux, specGapsAux,
      List.cons.injEq]
    exact ⟨by rw [harith], ih b⟩

theorem filterMap_strip (l : List (ℚ × ℚ)) :
    (l.map (fun p => (p.1, some p.2))).filterMap
      (fun p => (p.2).map (fun v => (p.1, v))) = l := by
  induction l with
  | nil => simp
  | cons x xs ih => simp [ih]

theorem find_largest_gaps_eq (idx : List ℚ) (n : Nat) (hne : idx ≠ []) :
    find_largest_gaps idx n = some ((sortGapsDesc (specGaps idx)).take n) := by
  cases idx with
  | nil => exact absurd rfl hne
  | cons t0 ts =>
    have hlist :
        (seriesDiff ((t0 :: ts).zip ((t0 :: ts).map (fun t => t - t0)))).filterMap
          (fun p => (p.2).map (fun v => (p.1, v))) = specGaps (t0 :: ts) := by
      simp only [List.map_cons, List.zip_cons_cons, seriesDiff]
      rw [diffAux_zip t0 ts t0]
      simp only [List.filterMap_cons, Option.map_none']
      rw [filterMap_strip]
      rfl
    show some (nlargest n (seriesDiff ((t0 :: ts).zip
      ((t0 :: ts).map (fun t => t - t0))))) =
      some ((sortGapsDesc (specGaps (t0 :: ts))).take n)
    unfold nlargest
    rw [hlist]

theorem mem_insertDescBy (x y : ℚ × ℚ) (l : List (ℚ × ℚ)) :
    y ∈ insertDescBy x l ↔ y = x ∨ y ∈ l := by
  induction l with
  | nil => simp [insertDescBy]
  | cons z zs ih =>
    unfold insertDescBy
    by_cases h : z.2 ≤ x.2
    · rw [if_pos h]
      simp [List.mem_cons]
    · rw [if_neg h]
      simp only [List.mem_cons, ih]
      tauto

theorem mem_sortGapsDesc (y : ℚ × ℚ) (l : List (ℚ × ℚ)) :
    y ∈ sortGapsDesc l ↔ y ∈ l := by
  induction l with
  | nil => simp [sortGapsDesc]
  | cons x xs ih => simp [sortGapsDesc, mem_insertDescBy, ih]

theorem length_insertDescBy (x : ℚ × ℚ) (l : List (ℚ × ℚ)) :
    (insertDescBy x l).length = l.length + 1 := by
  induction l with
  | nil => simp [insertDescBy]
  | cons z zs ih =>
    unfold insertDescBy
    by_cases h : z.2 ≤ x.2
    · rw [if_pos h]; simp
    · rw [if_neg h]; simp [ih]

theorem length_sortGapsDesc (l : List (ℚ × ℚ)) :
    (sortGapsDesc l).length = l.length := by
  induction l with
  | nil => rfl
  | cons x xs ih => simp [sortGapsDesc, length_insertDescBy, ih]

theorem sorted_insertDescBy (x : ℚ × ℚ) (l : List (ℚ × ℚ))
    (h : List.Pairwise (fun a b => b.2 ≤ a.2) l) :
    List.Pairwise (fun a b => b.2 ≤ a.2) (insertDescBy x l) := by
  induction l with
  | nil => simp [insertDescBy]
  | cons z zs ih =>
    rw [List.pairwise_cons] at h
    obtain ⟨hz, hzs⟩ := h
    unfold insertDescBy
    by_cases hle : z.2 ≤ x.2
    · rw [if_pos hle]
      rw [List.pairwise_cons]
      refine ⟨?_, ?_⟩
      · intro y hy
        rcases List.mem_cons.mp hy with rfl | hyzs
        · exact hle
        · exact le_trans (hz y hyzs) hle
      · rw [List.pairwise_cons]
        exact ⟨hz, hzs⟩
    · rw [if_neg hle]
      rw [List.pairwise_cons]
      refine ⟨?_, ih hzs⟩
      intro y hy
      rcases (mem_insertDescBy x y zs).mp hy with rfl | hyzs
      · exact le_of_lt (lt_of_not_le hle)
      · exact hz y hyzs

theorem sorted_sortGapsDesc (l : List (ℚ × ℚ)) :
    List.Pairwise (fun a b => b.2 ≤ a.2) (sortGapsDesc l) := by
  induction l with
  | nil => simp [sortGapsDesc]
  | cons x xs ih => exact sorted_insertDescBy x _ ih

theorem specGapsAux_length (prev : ℚ) (ts : List ℚ) :
    (specGapsAux prev ts).length = ts.length := by
  induction ts generalizing prev with
  | nil => rfl
  | cons b rest ih => simp [specGapsAux, ih]

theorem specGaps_length (idx : List ℚ) : (specGaps idx).length = idx.length - 1 := by
  cases idx with
  | nil => rfl
  | cons a rest => simp [specGaps, specGapsAux_length]

/-- C8: for every non-empty timestamp sequence and every n, the gap finder
returns exactly the first n elements of the stable descending ordering of
the successive gaps, each gap paired with the timestamp at which it ends
(the specification formula specGaps, ordered by sortGapsDesc, whose ties
keep the original relative order); the returned values are sorted
descending, and n = 0 yields an empty result. -/
theorem find_largest_gaps_spec (idx : List ℚ) (n : Nat) (hne : idx ≠ []) :
    find_largest_gaps idx n = some ((sortGapsDesc (specGaps idx)).take n) ∧
    (∀ l, find_largest_gaps idx n = some l →
      List.Pairwise (fun a b => b.2 ≤ a.2) l) ∧
    find_largest_gaps idx 0 = some [] := by
  refine ⟨find_largest_gaps_eq idx n hne, ?_, ?_⟩
  · intro l hl
    rw [find_largest_gaps_eq idx n hne] at hl
    have h2 := Option.some.inj hl
    rw [← h2]
    exact (sorted_sortGapsDesc _).sublist (List.take_sublist n _)
  · rw [find_largest_gaps_eq idx 0 hne]
    simp

theorem gaps_example_eval :
    find_largest_gaps [(0 : ℚ), 10, 11] 2 = some [(10, 10), (11, 1)] := by
  norm_num [find_largest_gaps, nlargest, seriesDiff, diffAux, sortGapsDesc,
    insertDescBy]

theorem find_largest_gaps_spec_witness :
    find_largest_gaps [(0 : ℚ), 10, 11] 2 =
      some ((sortGapsDesc (specGaps [(0 : ℚ), 10, 11])).take 2) ∧
    find_largest_gaps [(0 : ℚ), 10, 11] 2 = some [(10, 10), (11, 1)] :=
  ⟨(find_largest_gaps_spec [(0 : ℚ), 10, 11] 2 (by decide)).1, gaps_example_eval⟩

/-- C10: the first timestamp, whose gap is undefined, never contributes:
every returned pair is one of the successive gaps ending at the second or a
later timestamp, and the number of returned pairs never exceeds the number
of such gaps, one less than the length of the input. -/
theorem find_largest_gaps_excludes_first (idx : List ℚ) (n : Nat)
    (l : List (ℚ × ℚ)) (hne : idx ≠ [])
    (h : find_largest_gaps idx n = some l) :
    (∀ p ∈ l, p ∈ specGaps idx) ∧ l.length = min n (idx.length - 1) := by
  rw [find_largest_gaps_eq idx n hne] at h
  have h2 := Option.some.inj h
  rw [← h2]
  constructor
  · intro p hp
    have hp2 : p ∈ sortGapsDesc (specGaps idx) :=
      (List.take_sublist n _).subset hp
    exact (mem_sortGapsDesc p _).mp hp2
  · rw [List.length_take, length_sortGapsDesc, specGaps_length]

theorem find_largest_gaps_excludes_first_witness :
    (∀ p ∈ [((10 : ℚ), (10 : ℚ)), (11, 1)], p ∈ specGaps [(0 : ℚ), 10, 11]) ∧
    ([((10 : ℚ), (10 : ℚ)), (11, 1)] : List (ℚ × ℚ)).length =
      min 2 ([(0 : ℚ), 10, 11].length - 1) :=
  find_largest_gaps_excludes_first [(0 : ℚ), 10, 11] 2 [(10, 10), (11, 1)]
    (by decide) gaps_example_eval
